import Mathlib

/-!
Verification of the request-header codec of the `rust-http` library
(`src/libhttp/headers/request.rs`).

The file shallowly embeds the codec in Lean 4:

* `Header` and `HeaderCollection` (with its `insert`) are translated
  directly from `request.rs`, as are `header_name`, `write_header` and
  `value_from_stream`.
* The helpers that `request.rs` imports from sibling modules that are not
  part of the sources under verification (the quoting utilities from
  `headers::serialization_utils`, the per-kind `HeaderConvertible`
  conversions, the structured value types `Connection`/`Host`/`Allow`, the
  timestamp type `Tm` from `extra::time`, and `extra::treemap::TreeMap`)
  are modelled from the specification document, and each such definition
  says so in its doc comment.
* A `Writer` is modelled as the `String` of bytes it receives; a header
  value source (`HeaderValueByteIterator`) is modelled as the `String` of
  the already-unfolded value bytes it yields.
-/

set_option maxHeartbeats 1000000

namespace RustHttp

/-! ## Quoting utilities (headers::serialization_utils) -/

/-- Modelled from the spec: the RFC 2616 separator characters, which
together with control characters are excluded from the unquoted-token
grammar used by the quoting utilities (§4.2). -/
def isSeparator (c : Char) : Bool :=
  c = '(' || c = ')' || c = '<' || c = '>' || c = '@' ||
  c = ',' || c = ';' || c = ':' || c = '\\' || c = '"' ||
  c = '/' || c = '[' || c = ']' || c = '?' || c = '=' ||
  c = '\x7b' || c = '\x7d' || c = ' ' || c = '\t'

/-- Modelled from the spec: a character of the unquoted-token grammar —
a printable ASCII character that is not a separator (§4.2). -/
def isTokenChar (c : Char) : Bool :=
  31 < c.toNat && c.toNat < 127 && !(isSeparator c)

/-- Modelled from the spec: backslash-escape embedded double quotes and
backslashes when producing a quoted-string (§4.2). -/
def escapeChars : List Char → List Char
  | [] => []
  | c :: rest =>
    if c = '"' || c = '\\' then '\\' :: c :: escapeChars rest
    else c :: escapeChars rest

/-- Modelled from the spec: decide-and-apply quoting (§4.2).  If the text
contains any character outside the unquoted-token grammar it is wrapped in
double quotes with embedded `"` and `\` backslash-escaped; otherwise it is
passed through literally. -/
def maybe_quote (cs : List Char) : List Char :=
  if cs.all isTokenChar then cs else '"' :: (escapeChars cs ++ ['"'])

/-- Modelled from the spec: `push_maybe_quoted_string(s, value)` from
`headers::serialization_utils` (not under the verified sources) appends
the maybe-quoted `value` to `s` and returns the result (§4.2). -/
def push_maybe_quoted_string (s : String) (value : String) : String :=
  String.mk (s.data ++ maybe_quote value.data)

/-- Modelled from the spec: resolve backslash escapes inside a
quoted-string body (`\"` to `"`, `\\` to `\`); a trailing unmatched
backslash is the malformed case, reported as `none` so that the caller can
fall back to the literal text (§4.2). -/
def unescapeChars : List Char → Option (List Char)
  | [] => some []
  | c :: rest =>
    if c = '\\' then
      match rest with
      | [] => none
      | d :: rest2 => (unescapeChars rest2).map (fun l => d :: l)
    else (unescapeChars rest).map (fun l => c :: l)

/-- Modelled from the spec: detect-and-remove quoting (§4.2).  If the text
begins and ends with an unescaped double quote the delimiters are stripped
and backslash escapes resolved; otherwise — including every malformed
case — the text is returned unchanged. -/
def maybe_unquote (cs : List Char) : List Char :=
  if 2 ≤ cs.length ∧ cs.head? = some '"' ∧ cs.getLast? = some '"' then
    match unescapeChars (cs.drop 1).dropLast with
    | some r => r
    | none => cs
  else cs

/-- Modelled from the spec: `maybe_unquote_string` from
`headers::serialization_utils` (not under the verified sources).  Its
result is an `Option` to match the shape of its call site in
`value_from_stream`, but by §4.2 unquoting always succeeds (malformed
quoting falls back to the literal text), so it is always `some`. -/
def maybe_unquote_string (s : String) : Option String :=
  some (String.mk (maybe_unquote s.data))

/-! ## Per-kind value conversions (HeaderConvertible) -/

/-- Modelled from the spec: the timestamp type of the external time
collaborator (`extra::time::Tm`); its representation is opaque to the
codec. -/
structure Tm where
  sec : Nat
deriving DecidableEq, Repr

/-- Modelled from the spec: the external RFC 1123 time formatting and
parsing collaborator (§1 places it out of scope, so it is kept abstract as
a pair of functions: format to wire text, and parse returning `none` on
any rejected format). -/
structure TmCodec where
  fmt : Tm → String
  parse : String → Option Tm

/-- Modelled from the spec: opaque-text field serialization — pass the
bytes through with no transformation (§4.3). -/
def strToStream (s : String) : String := s

/-- Modelled from the spec: opaque-text field parse — pass through all
bytes from the value source (§4.3); it always succeeds. -/
def strFromStream (s : String) : Option String := some s

/-- Modelled from the spec: one decimal digit of an unsigned integer, or
`none` for a non-digit character (§4.3). -/
def charDigit (c : Char) : Option Nat :=
  if '0' ≤ c ∧ c ≤ '9' then some (c.toNat - 48) else none

/-- Modelled from the spec: the digits of an unsigned-integer value, most
significant first, or `none` if any character is not a digit (§4.3). -/
def digitsOf : List Char → Option (List Nat)
  | [] => some []
  | c :: rest =>
    match charDigit c, digitsOf rest with
    | some d, some ds => some (d :: ds)
    | _, _ => none

/-- Modelled from the spec: unsigned-integer field serialization — decimal
ASCII with no padding (§4.3). -/
def uintToStream (n : Nat) : String := Nat.repr n

/-- Modelled from the spec: unsigned-integer field parse — consecutive
ASCII digits; `none` on empty or non-digit content, and values exceeding
the platform's 64-bit unsigned range are `none`, not wrapped (§4.3). -/
def uintFromStream (s : String) : Option Nat :=
  if s.data.isEmpty then none
  else
    match digitsOf s.data with
    | some ds =>
      let n := Nat.ofDigits 10 ds.reverse
      if n < 2 ^ 64 then some n else none
    | none => none

/-- Modelled from the spec: comma-join the serialized parts of a
structured list value (§4.3). -/
def joinComma : List (List Char) → List Char
  | [] => []
  | [p] => p
  | p :: q :: ps => p ++ ',' :: joinComma (q :: ps)

/-- Modelled from the spec: split a structured list value at commas, the
inverse direction of `joinComma` (§4.3). -/
def splitComma : List Char → List (List Char)
  | [] => [[]]
  | c :: rest =>
    if c = ',' then [] :: splitComma rest
    else
      match splitComma rest with
      | [] => [[c]]
      | p :: ps => (c :: p) :: ps

/-- Modelled from the spec: the connection-token list carried by the
`Connection` field (`headers::connection`, not under the verified
sources); §4.3 gives its grammar as comma-joined tokens. -/
structure Connection where
  tokens : List String
deriving DecidableEq, Repr

/-- Modelled from the spec: serialize a connection-token list as
comma-joined tokens (§4.3). -/
def Connection.toStream (c : Connection) : String :=
  String.mk (joinComma (c.tokens.map String.data))

/-- Modelled from the spec: parse a connection-token list; `none` if the
structure cannot be recognized, i.e. if any comma-separated part is not a
non-empty token (§4.3). -/
def Connection.fromStream (s : String) : Option Connection :=
  let parts := splitComma s.data
  if parts.all (fun p => !p.isEmpty && p.all isTokenChar) then
    some ⟨parts.map String.mk⟩
  else none

/-- Modelled from the spec: the RFC 2616 request methods whose names the
`Allow` field carries as a comma-joined list (§4.3). -/
inductive Method where
  | OPTIONS | GET | HEAD | POST | PUT | DELETE | TRACE | CONNECT
deriving DecidableEq, Repr

/-- Modelled from the spec: the wire name of a request method (§4.3). -/
def Method.name : Method → String
  | .OPTIONS => "OPTIONS"
  | .GET => "GET"
  | .HEAD => "HEAD"
  | .POST => "POST"
  | .PUT => "PUT"
  | .DELETE => "DELETE"
  | .TRACE => "TRACE"
  | .CONNECT => "CONNECT"

/-- Modelled from the spec: recognize one method name, `none` on any other
text (§4.3). -/
def methodFromString (s : String) : Option Method :=
  if s = "OPTIONS" then some .OPTIONS
  else if s = "GET" then some .GET
  else if s = "HEAD" then some .HEAD
  else if s = "POST" then some .POST
  else if s = "PUT" then some .PUT
  else if s = "DELETE" then some .DELETE
  else if s = "TRACE" then some .TRACE
  else if s = "CONNECT" then some .CONNECT
  else none

/-- Modelled from the spec: parse every comma-separated part of an
`Allow` value as a method name, failing if any part fails (§4.3). -/
def methodsOf : List (List Char) → Option (List Method)
  | [] => some []
  | p :: ps =>
    match methodFromString (String.mk p), methodsOf ps with
    | some m, some ms => some (m :: ms)
    | _, _ => none

/-- Modelled from the spec: the method list carried by the `Allow` field
(`headers::allow`, not under the verified sources); §4.3 gives its grammar
as comma-joined method names. -/
structure Allow where
  methods : List Method
deriving DecidableEq, Repr

/-- Modelled from the spec: serialize an allow-list as comma-joined method
names (§4.3). -/
def Allow.toStream (a : Allow) : String :=
  String.mk (joinComma (a.methods.map (fun m => m.name.data)))

/-- Modelled from the spec: parse an allow-list; `none` if any part is not
a method name (§4.3). -/
def Allow.fromStream (s : String) : Option Allow :=
  (methodsOf (splitComma s.data)).map Allow.mk

/-- Modelled from the spec: the `host[:port]` pair carried by the `Host`
field (`headers::host`, not under the verified sources) (§4.3). -/
structure Host where
  name : String
  port : Option Nat
deriving DecidableEq, Repr

/-- Modelled from the spec: serialize a host as `host[:port]` (§4.3). -/
def Host.toStream (h : Host) : String :=
  match h.port with
  | none => h.name
  | some p => h.name ++ ":" ++ Nat.repr p

/-- Modelled from the spec: break a host value at the first colon,
returning the part before it and, when a colon is present, the part after
it (§4.3). -/
def breakColon : List Char → List Char × Option (List Char)
  | [] => ([], none)
  | c :: rest =>
    if c = ':' then ([], some rest)
    else
      let (b, a) := breakColon rest
      (c :: b, a)

/-- Modelled from the spec: parse a `host[:port]` pair; `none` if the part
after the colon is not an unsigned integer (§4.3). -/
def Host.fromStream (s : String) : Option Host :=
  match breakColon s.data with
  | (b, none) => some ⟨String.mk b, none⟩
  | (b, some pcs) => (uintFromStream (String.mk pcs)).map (fun p => ⟨String.mk b, some p⟩)

/-! ## The extensions map (extra::treemap::TreeMap) -/

/-- Modelled from the spec: the entries of an ordered-by-key mapping from
extension field name to text value, with unique keys where the last
insertion for a given name wins (§3).  This is the model of
`extra::treemap::TreeMap<~str, ~str>`, an external collaborator. -/
def insertList : List (String × String) → String → String → List (String × String)
  | [], k, v => [(k, v)]
  | (k', v') :: rest, k, v =>
    if k = k' then (k, v) :: rest
    else if k < k' then (k, v) :: (k', v') :: rest
    else (k', v') :: insertList rest k v

/-- Modelled from the spec: look a key up among the entries of the
extensions mapping (§3). -/
def findList : List (String × String) → String → Option String
  | [], _ => none
  | (k', v') :: rest, k => if k = k' then some v' else findList rest k

/-- Modelled from the spec: the ordered-by-key mapping used for extension
fields, keyed case-sensitively by the exact name text (§3). -/
structure TreeMap where
  entries : List (String × String)
deriving DecidableEq, Repr

/-- Modelled from the spec: the empty extensions mapping (§3). -/
def TreeMap.empty : TreeMap := ⟨[]⟩

/-- Modelled from the spec: set or overwrite the entry for a key (§3). -/
def TreeMap.insert (m : TreeMap) (k v : String) : TreeMap :=
  ⟨insertList m.entries k v⟩

/-- Modelled from the spec: the value stored for a key, if any (§3). -/
def TreeMap.find (m : TreeMap) (k : String) : Option String :=
  findList m.entries k

/-! ## The Header variant (request.rs, `pub enum Header`) -/

/-- Translated from `pub enum Header` in `request.rs`: one tag per known
request-header field plus the extension tag carrying a name and a value. -/
inductive Header where
  | CacheControl : String → Header
  | Connection : RustHttp.Connection → Header
  | Date : Tm → Header
  | Pragma : String → Header
  | Trailer : String → Header
  | TransferEncoding : String → Header
  | Upgrade : String → Header
  | Via : String → Header
  | Warning : String → Header
  | Accept : String → Header
  | AcceptCharset : String → Header
  | AcceptEncoding : String → Header
  | AcceptLanguage : String → Header
  | Authorization : String → Header
  | Expect : String → Header
  | From : String → Header
  | Host : RustHttp.Host → Header
  | IfMatch : String → Header
  | IfModifiedSince : Tm → Header
  | IfNoneMatch : String → Header
  | IfRange : String → Header
  | IfUnmodifiedSince : Tm → Header
  | MaxForwards : Nat → Header
  | ProxyAuthorization : String → Header
  | Range : String → Header
  | Referer : String → Header
  | Te : String → Header
  | UserAgent : String → Header
  | Allow : RustHttp.Allow → Header
  | ContentEncoding : String → Header
  | ContentLanguage : String → Header
  | ContentLength : Nat → Header
  | ContentLocation : String → Header
  | ContentMd5 : String → Header
  | ContentRange : String → Header
  | ContentType : String → Header
  | Expires : Tm → Header
  | LastModified : Tm → Header
  | ExtensionHeader : String → String → Header
deriving DecidableEq, Repr

/-! ## The Header collection (request.rs, `pub struct HeaderCollection`) -/

/-- Translated from `pub struct HeaderCollection` in `request.rs`: one
optional slot per known field plus the extensions map. -/
structure HeaderCollection where
  cache_control : Option String
  connection : Option Connection
  date : Option Tm
  pragma : Option String
  trailer : Option String
  transfer_encoding : Option String
  upgrade : Option String
  via : Option String
  warning : Option String
  accept : Option String
  accept_charset : Option String
  accept_encoding : Option String
  accept_language : Option String
  authorization : Option String
  expect : Option String
  «from» : Option String
  host : Option Host
  if_match : Option String
  if_modified_since : Option Tm
  if_none_match : Option String
  if_range : Option String
  if_unmodified_since : Option Tm
  max_forwards : Option Nat
  proxy_authorization : Option String
  range : Option String
  referer : Option String
  te : Option String
  user_agent : Option String
  allow : Option Allow
  content_encoding : Option String
  content_language : Option String
  content_length : Option Nat
  content_location : Option String
  content_md5 : Option String
  content_range : Option String
  content_type : Option String
  expires : Option Tm
  last_modified : Option Tm
  extensions : TreeMap
deriving DecidableEq, Repr

/-- Translated from `HeaderCollection::new` in `request.rs`: every slot
empty and an empty extensions map. -/
def HeaderCollection.new : HeaderCollection where
  cache_control := none
  connection := none
  date := none
  pragma := none
  trailer := none
  transfer_encoding := none
  upgrade := none
  via := none
  warning := none
  accept := none
  accept_charset := none
  accept_encoding := none
  accept_language := none
  authorization := none
  expect := none
  «from» := none
  host := none
  if_match := none
  if_modified_since := none
  if_none_match := none
  if_range := none
  if_unmodified_since := none
  max_forwards := none
  proxy_authorization := none
  range := none
  referer := none
  te := none
  user_agent := none
  allow := none
  content_encoding := none
  content_language := none
  content_length := none
  content_location := none
  content_md5 := none
  content_range := none
  content_type := none
  expires := none
  last_modified := none
  extensions := TreeMap.empty

/-- Translated from `HeaderCollection::insert` in `request.rs`: each known
tag stores `Some` of its value in the matching slot; the extension tag
inserts into the extensions map.  The Rust method mutates `self`; it is
modelled as a function from the old collection to the new one. -/
def HeaderCollection.insert (c : HeaderCollection) (header : Header) : HeaderCollection :=
  match header with
  | .CacheControl value => { c with cache_control := some value }
  | .Connection value => { c with connection := some value }
  | .Date value => { c with date := some value }
  | .Pragma value => { c with pragma := some value }
  | .Trailer value => { c with trailer := some value }
  | .TransferEncoding value => { c with transfer_encoding := some value }
  | .Upgrade value => { c with upgrade := some value }
  | .Via value => { c with via := some value }
  | .Warning value => { c with warning := some value }
  | .Accept value => { c with accept := some value }
  | .AcceptCharset value => { c with accept_charset := some value }
  | .AcceptEncoding value => { c with accept_encoding := some value }
  | .AcceptLanguage value => { c with accept_language := some value }
  | .Authorization value => { c with authorization := some value }
  | .Expect value => { c with expect := some value }
  | .From value => { c with «from» := some value }
  | .Host value => { c with host := some value }
  | .IfMatch value => { c with if_match := some value }
  | .IfModifiedSince value => { c with if_modified_since := some value }
  | .IfNoneMatch value => { c with if_none_match := some value }
  | .IfRange value => { c with if_range := some value }
  | .IfUnmodifiedSince value => { c with if_unmodified_since := some value }
  | .MaxForwards value => { c with max_forwards := some value }
  | .ProxyAuthorization value => { c with proxy_authorization := some value }
  | .Range value => { c with range := some value }
  | .Referer value => { c with referer := some value }
  | .Te value => { c with te := some value }
  | .UserAgent value => { c with user_agent := some value }
  | .Allow value => { c with allow := some value }
  | .ContentEncoding value => { c with content_encoding := some value }
  | .ContentLanguage value => { c with content_language := some value }
  | .ContentLength value => { c with content_length := some value }
  | .ContentLocation value => { c with content_location := some value }
  | .ContentMd5 value => { c with content_md5 := some value }
  | .ContentRange value => { c with content_range := some value }
  | .ContentType value => { c with content_type := some value }
  | .Expires value => { c with expires := some value }
  | .LastModified value => { c with last_modified := some value }
  | .ExtensionHeader key value => { c with extensions := c.extensions.insert key value }

/-! ## The Header enumeration contract (request.rs, `impl HeaderEnum`) -/

/-- Translated from `Header::header_name` in `request.rs`: the canonical
wire spelling of each known tag, and the stored name of an extension. -/
def header_name : Header → String
  | .CacheControl _ => "Cache-Control"
  | .Connection _ => "Connection"
  | .Date _ => "Date"
  | .Pragma _ => "Pragma"
  | .Trailer _ => "Trailer"
  | .TransferEncoding _ => "Transfer-Encoding"
  | .Upgrade _ => "Upgrade"
  | .Via _ => "Via"
  | .Warning _ => "Warning"
  | .Accept _ => "Accept"
  | .AcceptCharset _ => "Accept-Charset"
  | .AcceptEncoding _ => "Accept-Encoding"
  | .AcceptLanguage _ => "Accept-Language"
  | .Authorization _ => "Authorization"
  | .Expect _ => "Expect"
  | .From _ => "From"
  | .Host _ => "Host"
  | .IfMatch _ => "If-Match"
  | .IfModifiedSince _ => "If-Modified-Since"
  | .IfNoneMatch _ => "If-None-Match"
  | .IfRange _ => "If-Range"
  | .IfUnmodifiedSince _ => "If-Unmodified-Since"
  | .MaxForwards _ => "Max-Forwards"
  | .ProxyAuthorization _ => "Proxy-Authorization"
  | .Range _ => "Range"
  | .Referer _ => "Referer"
  | .Te _ => "TE"
  | .UserAgent _ => "User-Agent"
  | .Allow _ => "Allow"
  | .ContentEncoding _ => "Content-Encoding"
  | .ContentLanguage _ => "Content-Language"
  | .ContentLength _ => "Content-Length"
  | .ContentLocation _ => "Content-Location"
  | .ContentMd5 _ => "Content-MD5"
  | .ContentRange _ => "Content-Range"
  | .ContentType _ => "Content-Type"
  | .Expires _ => "Expires"
  | .LastModified _ => "Last-Modified"
  | .ExtensionHeader name _ => name

/-- Translated from the second `match` of `Header::write_header` in
`request.rs`: the `bytes!("Name: ")` literal written for each known tag.
The extension arm is `unreachable()` in the source because the extension
case returned earlier; it is mapped to the empty string, and
`write_header` below never consults it. -/
def knownNameColon : Header → String
  | .CacheControl _ => "Cache-Control: "
  | .Connection _ => "Connection: "
  | .Date _ => "Date: "
  | .Pragma _ => "Pragma: "
  | .Trailer _ => "Trailer: "
  | .TransferEncoding _ => "Transfer-Encoding: "
  | .Upgrade _ => "Upgrade: "
  | .Via _ => "Via: "
  | .Warning _ => "Warning: "
  | .Accept _ => "Accept: "
  | .AcceptCharset _ => "Accept-Charset: "
  | .AcceptEncoding _ => "Accept-Encoding: "
  | .AcceptLanguage _ => "Accept-Language: "
  | .Authorization _ => "Authorization: "
  | .Expect _ => "Expect: "
  | .From _ => "From: "
  | .Host _ => "Host: "
  | .IfMatch _ => "If-Match: "
  | .IfModifiedSince _ => "If-Modified-Since: "
  | .IfNoneMatch _ => "If-None-Match: "
  | .IfRange _ => "If-Range: "
  | .IfUnmodifiedSince _ => "If-Unmodified-Since: "
  | .MaxForwards _ => "Max-Forwards: "
  | .ProxyAuthorization _ => "Proxy-Authorization: "
  | .Range _ => "Range: "
  | .Referer _ => "Referer: "
  | .Te _ => "TE: "
  | .UserAgent _ => "User-Agent: "
  | .Allow _ => "Allow: "
  | .ContentEncoding _ => "Content-Encoding: "
  | .ContentLanguage _ => "Content-Language: "
  | .ContentLength _ => "Content-Length: "
  | .ContentLocation _ => "Content-Location: "
  | .ContentMd5 _ => "Content-MD5: "
  | .ContentRange _ => "Content-Range: "
  | .ContentType _ => "Content-Type: "
  | .Expires _ => "Expires: "
  | .LastModified _ => "Last-Modified: "
  | .ExtensionHeader _ _ => ""

/-- Translated from the third `match` of `Header::write_header` in
`request.rs`: the `h.to_stream(writer)` dispatch, with each payload kind's
`to_stream` modelled from §4.3 of the spec (they are implemented outside
the verified sources).  The extension arm is `unreachable()` in the
source; it is mapped to the empty string, and `write_header` below never
consults it. -/
def valueToStream (tmc : TmCodec) : Header → String
  | .CacheControl h => strToStream h
  | .Connection h => h.toStream
  | .Date h => tmc.fmt h
  | .Pragma h => strToStream h
  | .Trailer h => strToStream h
  | .TransferEncoding h => strToStream h
  | .Upgrade h => strToStream h
  | .Via h => strToStream h
  | .Warning h => strToStream h
  | .Accept h => strToStream h
  | .AcceptCharset h => strToStream h
  | .AcceptEncoding h => strToStream h
  | .AcceptLanguage h => strToStream h
  | .Authorization h => strToStream h
  | .Expect h => strToStream h
  | .From h => strToStream h
  | .Host h => h.toStream
  | .IfMatch h => strToStream h
  | .IfModifiedSince h => tmc.fmt h
  | .IfNoneMatch h => strToStream h
  | .IfRange h => strToStream h
  | .IfUnmodifiedSince h => tmc.fmt h
  | .MaxForwards h => uintToStream h
  | .ProxyAuthorization h => strToStream h
  | .Range h => strToStream h
  | .Referer h => strToStream h
  | .Te h => strToStream h
  | .UserAgent h => strToStream h
  | .Allow h => h.toStream
  | .ContentEncoding h => strToStream h
  | .ContentLanguage h => strToStream h
  | .ContentLength h => uintToStream h
  | .ContentLocation h => strToStream h
  | .ContentMd5 h => strToStream h
  | .ContentRange h => strToStream h
  | .ContentType h => strToStream h
  | .Expires h => tmc.fmt h
  | .LastModified h => tmc.fmt h
  | .ExtensionHeader _ _ => ""

/-- Translated from `Header::write_header` in `request.rs`.  The writer is
modelled as the string of bytes it receives.  The extension arm builds
`name`, `": "` and the maybe-quoted value and then returns — in the source
this arm ends in `return` before the `writer.write(bytes!("\r\n"))` at the
end of the function, so no CRLF is appended for an extension header.  For
every known tag the name literal, the `to_stream` value bytes and the
final `"\r\n"` are written in order. -/
def write_header (tmc : TmCodec) (h : Header) : String :=
  match h with
  | .ExtensionHeader name value => push_maybe_quoted_string (name ++ ": ") value
  | _ => knownNameColon h ++ valueToStream tmc h ++ "\r\n"

/-- Translated from `Header::value_from_stream` in `request.rs`: dispatch
on the exact name text, as spelled in the source's match arms (note the
source spells three arms `"If-NoneMatch"`, `"Te"` and `"Content-Md5"`),
each known arm parsing via its kind's `from_stream` and wrapping the
result, and the default arm unquoting the collected value text into an
extension header.  The value source is modelled as the string of value
bytes it yields. -/
def value_from_stream (tmc : TmCodec) (name : String) (value : String) : Option Header :=
  if name = "Cache-Control" then
    match strFromStream value with
    | some v => some (.CacheControl v)
    | none => none
  else if name = "Connection" then
    match Connection.fromStream value with
    | some v => some (.Connection v)
    | none => none
  else if name = "Date" then
    match tmc.parse value with
    | some v => some (.Date v)
    | none => none
  else if name = "Pragma" then
    match strFromStream value with
    | some v => some (.Pragma v)
    | none => none
  else if name = "Trailer" then
    match strFromStream value with
    | some v => some (.Trailer v)
    | none => none
  else if name = "Transfer-Encoding" then
    match strFromStream value with
    | some v => some (.TransferEncoding v)
    | none => none
  else if name = "Upgrade" then
    match strFromStream value with
    | some v => some (.Upgrade v)
    | none => none
  else if name = "Via" then
    match strFromStream value with
    | some v => some (.Via v)
    | none => none
  else if name = "Warning" then
    match strFromStream value with
    | some v => some (.Warning v)
    | none => none
  else if name = "Accept" then
    match strFromStream value with
    | some v => some (.Accept v)
    | none => none
  else if name = "Accept-Charset" then
    match strFromStream value with
    | some v => some (.AcceptCharset v)
    | none => none
  else if name = "Accept-Encoding" then
    match strFromStream value with
    | some v => some (.AcceptEncoding v)
    | none => none
  else if name = "Accept-Language" then
    match strFromStream value with
    | some v => some (.AcceptLanguage v)
    | none => none
  else if name = "Authorization" then
    match strFromStream value with
    | some v => some (.Authorization v)
    | none => none
  else if name = "Expect" then
    match strFromStream value with
    | some v => some (.Expect v)
    | none => none
  else if name = "From" then
    match strFromStream value with
    | some v => some (.From v)
    | none => none
  else if name = "Host" then
    match Host.fromStream value with
    | some v => some (.Host v)
    | none => none
  else if name = "If-Match" then
    match strFromStream value with
    | some v => some (.IfMatch v)
    | none => none
  else if name = "If-Modified-Since" then
    match tmc.parse value with
    | some v => some (.IfModifiedSince v)
    | none => none
  else if name = "If-NoneMatch" then
    match strFromStream value with
    | some v => some (.IfNoneMatch v)
    | none => none
  else if name = "If-Range" then
    match strFromStream value with
    | some v => some (.IfRange v)
    | none => none
  else if name = "If-Unmodified-Since" then
    match tmc.parse value with
    | some v => some (.IfUnmodifiedSince v)
    | none => none
  else if name = "Max-Forwards" then
    match uintFromStream value with
    | some v => some (.MaxForwards v)
    | none => none
  else if name = "Proxy-Authorization" then
    match strFromStream value with
    | some v => some (.ProxyAuthorization v)
    | none => none
  else if name = "Range" then
    match strFromStream value with
    | some v => some (.Range v)
    | none => none
  else if name = "Referer" then
    match strFromStream value with
    | some v => some (.Referer v)
    | none => none
  else if name = "Te" then
    match strFromStream value with
    | some v => some (.Te v)
    | none => none
  else if name = "User-Agent" then
    match strFromStream value with
    | some v => some (.UserAgent v)
    | none => none
  else if name = "Allow" then
    match Allow.fromStream value with
    | some v => some (.Allow v)
    | none => none
  else if name = "Content-Encoding" then
    match strFromStream value with
    | some v => some (.ContentEncoding v)
    | none => none
  else if name = "Content-Language" then
    match strFromStream value with
    | some v => some (.ContentLanguage v)
    | none => none
  else if name = "Content-Length" then
    match uintFromStream value with
    | some v => some (.ContentLength v)
    | none => none
  else if name = "Content-Location" then
    match strFromStream value with
    | some v => some (.ContentLocation v)
    | none => none
  else if name = "Content-Md5" then
    match strFromStream value with
    | some v => some (.ContentMd5 v)
    | none => none
  else if name = "Content-Range" then
    match strFromStream value with
    | some v => some (.ContentRange v)
    | none => none
  else if name = "Content-Type" then
    match strFromStream value with
    | some v => some (.ContentType v)
    | none => none
  else if name = "Expires" then
    match tmc.parse value with
    | some v => some (.Expires v)
    | none => none
  else if name = "Last-Modified" then
    match tmc.parse value with
    | some v => some (.LastModified v)
    | none => none
  else
    match maybe_unquote_string value with
    | some v => some (.ExtensionHeader name v)
    | none => none

/-- The exact name texts of the known match arms of `value_from_stream`,
in source order (including the three misspelled arms). -/
def knownNames : List String :=
  ["Cache-Control", "Connection", "Date", "Pragma", "Trailer",
   "Transfer-Encoding", "Upgrade", "Via", "Warning",
   "Accept", "Accept-Charset", "Accept-Encoding", "Accept-Language",
   "Authorization", "Expect", "From", "Host", "If-Match",
   "If-Modified-Since", "If-NoneMatch", "If-Range", "If-Unmodified-Since",
   "Max-Forwards", "Proxy-Authorization", "Range", "Referer", "Te",
   "User-Agent", "Allow", "Content-Encoding", "Content-Language",
   "Content-Length", "Content-Location", "Content-Md5", "Content-Range",
   "Content-Type", "Expires", "Last-Modified"]

/-! ## Observation helpers for the collection -/

/-- Observation function for stating the `insert` claims: the slot of the
collection that belongs to the given variant's tag (for an extension, the
entry for its stored name), rewrapped as a `Header`. -/
def retrieve (c : HeaderCollection) : Header → Option Header
  | .CacheControl _ => c.cache_control.map Header.CacheControl
  | .Connection _ => c.connection.map Header.Connection
  | .Date _ => c.date.map Header.Date
  | .Pragma _ => c.pragma.map Header.Pragma
  | .Trailer _ => c.trailer.map Header.Trailer
  | .TransferEncoding _ => c.transfer_encoding.map Header.TransferEncoding
  | .Upgrade _ => c.upgrade.map Header.Upgrade
  | .Via _ => c.via.map Header.Via
  | .Warning _ => c.warning.map Header.Warning
  | .Accept _ => c.accept.map Header.Accept
  | .AcceptCharset _ => c.accept_charset.map Header.AcceptCharset
  | .AcceptEncoding _ => c.accept_encoding.map Header.AcceptEncoding
  | .AcceptLanguage _ => c.accept_language.map Header.AcceptLanguage
  | .Authorization _ => c.authorization.map Header.Authorization
  | .Expect _ => c.expect.map Header.Expect
  | .From _ => c.«from».map Header.From
  | .Host _ => c.host.map Header.Host
  | .IfMatch _ => c.if_match.map Header.IfMatch
  | .IfModifiedSince _ => c.if_modified_since.map Header.IfModifiedSince
  | .IfNoneMatch _ => c.if_none_match.map Header.IfNoneMatch
  | .IfRange _ => c.if_range.map Header.IfRange
  | .IfUnmodifiedSince _ => c.if_unmodified_since.map Header.IfUnmodifiedSince
  | .MaxForwards _ => c.max_forwards.map Header.MaxForwards
  | .ProxyAuthorization _ => c.proxy_authorization.map Header.ProxyAuthorization
  | .Range _ => c.range.map Header.Range
  | .Referer _ => c.referer.map Header.Referer
  | .Te _ => c.te.map Header.Te
  | .UserAgent _ => c.user_agent.map Header.UserAgent
  | .Allow _ => c.allow.map Header.Allow
  | .ContentEncoding _ => c.content_encoding.map Header.ContentEncoding
  | .ContentLanguage _ => c.content_language.map Header.ContentLanguage
  | .ContentLength _ => c.content_length.map Header.ContentLength
  | .ContentLocation _ => c.content_location.map Header.ContentLocation
  | .ContentMd5 _ => c.content_md5.map Header.ContentMd5
  | .ContentRange _ => c.content_range.map Header.ContentRange
  | .ContentType _ => c.content_type.map Header.ContentType
  | .Expires _ => c.expires.map Header.Expires
  | .LastModified _ => c.last_modified.map Header.LastModified
  | .ExtensionHeader name _ => (c.extensions.find name).map (Header.ExtensionHeader name)

/-- The storage slot a variant targets: the index of its known tag, or the
stored name of an extension.  Two variants with distinct slot keys occupy
independent storage in the collection. -/
def slotKey : Header → Nat ⊕ String
  | .CacheControl _ => .inl 0
  | .Connection _ => .inl 1
  | .Date _ => .inl 2
  | .Pragma _ => .inl 3
  | .Trailer _ => .inl 4
  | .TransferEncoding _ => .inl 5
  | .Upgrade _ => .inl 6
  | .Via _ => .inl 7
  | .Warning _ => .inl 8
  | .Accept _ => .inl 9
  | .AcceptCharset _ => .inl 10
  | .AcceptEncoding _ => .inl 11
  | .AcceptLanguage _ => .inl 12
  | .Authorization _ => .inl 13
  | .Expect _ => .inl 14
  | .From _ => .inl 15
  | .Host _ => .inl 16
  | .IfMatch _ => .inl 17
  | .IfModifiedSince _ => .inl 18
  | .IfNoneMatch _ => .inl 19
  | .IfRange _ => .inl 20
  | .IfUnmodifiedSince _ => .inl 21
  | .MaxForwards _ => .inl 22
  | .ProxyAuthorization _ => .inl 23
  | .Range _ => .inl 24
  | .Referer _ => .inl 25
  | .Te _ => .inl 26
  | .UserAgent _ => .inl 27
  | .Allow _ => .inl 28
  | .ContentEncoding _ => .inl 29
  | .ContentLanguage _ => .inl 30
  | .ContentLength _ => .inl 31
  | .ContentLocation _ => .inl 32
  | .ContentMd5 _ => .inl 33
  | .ContentRange _ => .inl 34
  | .ContentType _ => .inl 35
  | .Expires _ => .inl 36
  | .LastModified _ => .inl 37
  | .ExtensionHeader name _ => .inr name

/-- A concrete instance of the external timestamp codec, used to
instantiate theorems that are generic in the codec. -/
def tmDefault : TmCodec where
  fmt := fun t => Nat.repr t.sec
  parse := fun s => (uintFromStream s).map Tm.mk

/-! ## Helper lemmas about the extensions map -/

theorem findList_insertList_self (l : List (String × String)) (k v : String) :
    findList (insertList l k v) k = some v := by
  induction l with
  | nil => simp [insertList, findList]
  | cons hd tl ih =>
    obtain ⟨k', v'⟩ := hd
    by_cases hk : k = k'
    · simp [insertList, hk, findList]
    · by_cases hlt : k < k'
      · simp [insertList, hk, hlt, findList]
      · simp [insertList, hk, hlt, findList, ih]

theorem findList_insertList_ne (l : List (String × String)) (k v k' : String)
    (h : k' ≠ k) : findList (insertList l k v) k' = findList l k' := by
  induction l with
  | nil => simp [insertList, findList, h]
  | cons hd tl ih =>
    obtain ⟨k₁, v₁⟩ := hd
    by_cases hk : k = k₁
    · subst hk
      simp [insertList, findList, h]
    · by_cases hlt : k < k₁
      · simp [insertList, hk, hlt, findList, h]
      · simp [insertList, hk, hlt, findList, ih]

/-! ## Helper lemmas about the quoting utilities -/

theorem unescapeChars_escapeChars (cs : List Char) :
    unescapeChars (escapeChars cs) = some cs := by
  induction cs with
  | nil => rfl
  | cons c rest ih =>
    by_cases hc : c = '"' ∨ c = '\\'
    · have : escapeChars (c :: rest) = '\\' :: c :: escapeChars rest := by
        simp [escapeChars]
        tauto
      rw [this]
      simp [unescapeChars, ih]
    · push_neg at hc
      have hstep : escapeChars (c :: rest) = c :: escapeChars rest := by
        simp [escapeChars, hc.1, hc.2]
      rw [hstep, unescapeChars.eq_def]
      simp [hc.2, ih]

theorem maybe_unquote_of_all_token {cs : List Char} (h : cs.all isTokenChar) :
    maybe_unquote cs = cs := by
  rw [maybe_unquote, if_neg]
  rintro ⟨-, hhead, -⟩
  cases cs with
  | nil => simp at hhead
  | cons c rest =>
    simp only [List.head?_cons, Option.some.injEq] at hhead
    subst hhead
    simp [List.all_cons, isTokenChar, isSeparator] at h

theorem maybe_unquote_quoted (l : List Char) :
    maybe_unquote ('"' :: (l ++ ['"'])) =
      match unescapeChars l with
      | some r => r
      | none => '"' :: (l ++ ['"']) := by
  have hlen : 2 ≤ ('"' :: (l ++ ['"'])).length := by
    simp
  have hlast : ('"' :: (l ++ ['"'])).getLast? = some '"' := by
    have : '"' :: (l ++ ['"']) = ('"' :: l) ++ ['"'] := by simp
    rw [this]
    exact List.getLast?_concat _
  have hdrop : (('"' :: (l ++ ['"'])).drop 1).dropLast = l := by
    simp [List.dropLast_concat]
  rw [maybe_unquote, if_pos ⟨hlen, rfl, hlast⟩, hdrop]

theorem maybe_unquote_maybe_quote (cs : List Char) :
    maybe_unquote (maybe_quote cs) = cs := by
  by_cases h : cs.all isTokenChar
  · rw [maybe_quote, if_pos h, maybe_unquote_of_all_token h]
  · rw [maybe_quote, if_neg h, maybe_unquote_quoted, unescapeChars_escapeChars]

/-! ## Claim theorems -/

/-- C1: the claim states that every `Header` variant, including
`ExtensionHeader`, is written as one complete CRLF-terminated line.  The
code violates this: the extension arm of `write_header` returns before
the final `writer.write(bytes!("\r\n"))`, so an extension header is
written as name, `": "` and the maybe-quoted value with no terminator.
This theorem evaluates `write_header` at the failing input
`ExtensionHeader("X-Custom", "foo")`: the bytes written are exactly
`"X-Custom: foo"`, not the CRLF-terminated `"X-Custom: foo\r\n"` the
claim requires. -/
theorem write_header_extension_missing_crlf :
    write_header tmDefault (.ExtensionHeader "X-Custom" "foo") = "X-Custom: foo" ∧
    write_header tmDefault (.ExtensionHeader "X-Custom" "foo") ≠ "X-Custom: foo\r\n" := by
  decide

/-- C2: the claim states that every known-tag variant round-trips through
`write_header` and `value_from_stream`.  The code violates this for
`IfNoneMatch` (and likewise `Te` and `ContentMd5`): `header_name` and
`write_header` spell the name `"If-None-Match"`, but the match arm of
`value_from_stream` is spelled `"If-NoneMatch"`, so the serialized name
falls through to the extension arm.  This theorem evaluates the
round-trip at `IfNoneMatch "*"`: the parse returns the extension variant,
not `some (IfNoneMatch "*")`. -/
theorem roundtrip_if_none_match_fails :
    header_name (.IfNoneMatch "*") = "If-None-Match" ∧
    valueToStream tmDefault (.IfNoneMatch "*") = "*" ∧
    value_from_stream tmDefault "If-None-Match" (valueToStream tmDefault (.IfNoneMatch "*")) =
      some (.ExtensionHeader "If-None-Match" "*") ∧
    value_from_stream tmDefault "If-None-Match" (valueToStream tmDefault (.IfNoneMatch "*")) ≠
      some (.IfNoneMatch "*") := by
  decide

/-- C3: for every name that matches no entry of the known-name table and
every value text, `value_from_stream` returns `some` of an extension
header carrying the name and the unquoted value text; it never returns
`none` for an unknown name. -/
theorem unknown_name_extension (tmc : TmCodec) (name val : String)
    (h : name ∉ knownNames) :
    value_from_stream tmc name val =
      some (.ExtensionHeader name (String.mk (maybe_unquote val.data))) := by
  simp only [knownNames, List.mem_cons, List.not_mem_nil, or_false, not_or] at h
  obtain ⟨h1, h2, h3, h4, h5, h6, h7, h8, h9, h10, h11, h12, h13, h14, h15, h16,
    h17, h18, h19, h20, h21, h22, h23, h24, h25, h26, h27, h28, h29, h30, h31,
    h32, h33, h34, h35, h36, h37, h38⟩ := h
  simp [value_from_stream, h1, h2, h3, h4, h5, h6, h7, h8, h9, h10, h11, h12,
    h13, h14, h15, h16, h17, h18, h19, h20, h21, h22, h23, h24, h25, h26, h27,
    h28, h29, h30, h31, h32, h33, h34, h35, h36, h37, h38, maybe_unquote_string]

/-- Witness for C3 at the concrete unknown name `"X-Custom"`. -/
theorem unknown_name_extension_witness :
    ("X-Custom" ∉ knownNames) ∧
    value_from_stream tmDefault "X-Custom" "v" =
      some (.ExtensionHeader "X-Custom" (String.mk (maybe_unquote ("v" : String).data))) :=
  ⟨by decide, unknown_name_extension tmDefault "X-Custom" "v" (by decide)⟩

/-- C4: `insert` is total (it is a Lean function on all of
(collection, variant)), and for every collection and variant the slot the
variant targets afterwards holds exactly the inserted value: `Some` of
the carried value for a known tag (overwriting whatever was there), and
the extensions-map entry for the carried name for an extension. -/
theorem insert_retrieve_self (c : HeaderCollection) (h : Header) :
    retrieve (c.insert h) h = some h := by
  cases h <;>
    first
      | rfl
      | exact congrArg (Option.map _) (findList_insertList_self _ _ _)

/-- C5: frame property of `insert` — inserting a variant leaves every
slot with a different slot key (every other known field, the extensions
map seen from a known field, and every extensions-map entry under a
different name) unchanged. -/
theorem insert_frame (c : HeaderCollection) (h h' : Header)
    (hne : slotKey h ≠ slotKey h') :
    retrieve (c.insert h) h' = retrieve c h' := by
  cases h <;> cases h' <;>
    first
      | rfl
      | exact absurd rfl hne
      | exact congrArg (Option.map _)
          (findList_insertList_ne _ _ _ _ (fun e => hne (congrArg Sum.inr e.symm)))

/-- Witness for C5: inserting `Cache-Control` leaves the `Accept` slot of
the empty collection unchanged. -/
theorem insert_frame_witness :
    slotKey (Header.CacheControl "a") ≠ slotKey (Header.Accept "b") ∧
    retrieve (HeaderCollection.new.insert (Header.CacheControl "a")) (Header.Accept "b") =
      retrieve HeaderCollection.new (Header.Accept "b") :=
  ⟨by decide,
   insert_frame HeaderCollection.new (Header.CacheControl "a") (Header.Accept "b") (by decide)⟩

/-- C6: `header_name` is total over all tags, returns each known tag's
fixed canonical wire spelling independently of the payload (including
`"Content-MD5"` and `"TE"`), and returns an extension's stored name
verbatim. -/
theorem header_name_canonical :
    (∀ v, header_name (.CacheControl v) = "Cache-Control") ∧
    (∀ v, header_name (.Connection v) = "Connection") ∧
    (∀ v, header_name (.Date v) = "Date") ∧
    (∀ v, header_name (.Pragma v) = "Pragma") ∧
    (∀ v, header_name (.Trailer v) = "Trailer") ∧
    (∀ v, header_name (.TransferEncoding v) = "Transfer-Encoding") ∧
    (∀ v, header_name (.Upgrade v) = "Upgrade") ∧
    (∀ v, header_name (.Via v) = "Via") ∧
    (∀ v, header_name (.Warning v) = "Warning") ∧
    (∀ v, header_name (.Accept v) = "Accept") ∧
    (∀ v, header_name (.AcceptCharset v) = "Accept-Charset") ∧
    (∀ v, header_name (.AcceptEncoding v) = "Accept-Encoding") ∧
    (∀ v, header_name (.AcceptLanguage v) = "Accept-Language") ∧
    (∀ v, header_name (.Authorization v) = "Authorization") ∧
    (∀ v, header_name (.Expect v) = "Expect") ∧
    (∀ v, header_name (.From v) = "From") ∧
    (∀ v, header_name (.Host v) = "Host") ∧
    (∀ v, header_name (.IfMatch v) = "If-Match") ∧
    (∀ v, header_name (.IfModifiedSince v) = "If-Modified-Since") ∧
    (∀ v, header_name (.IfNoneMatch v) = "If-None-Match") ∧
    (∀ v, header_name (.IfRange v) = "If-Range") ∧
    (∀ v, header_name (.IfUnmodifiedSince v) = "If-Unmodified-Since") ∧
    (∀ v, header_name (.MaxForwards v) = "Max-Forwards") ∧
    (∀ v, header_name (.ProxyAuthorization v) = "Proxy-Authorization") ∧
    (∀ v, header_name (.Range v) = "Range") ∧
    (∀ v, header_name (.Referer v) = "Referer") ∧
    (∀ v, header_name (.Te v) = "TE") ∧
    (∀ v, header_name (.UserAgent v) = "User-Agent") ∧
    (∀ v, header_name (.Allow v) = "Allow") ∧
    (∀ v, header_name (.ContentEncoding v) = "Content-Encoding") ∧
    (∀ v, header_name (.ContentLanguage v) = "Content-Language") ∧
    (∀ v, header_name (.ContentLength v) = "Content-Length") ∧
    (∀ v, header_name (.ContentLocation v) = "Content-Location") ∧
    (∀ v, header_name (.ContentMd5 v) = "Content-MD5") ∧
    (∀ v, header_name (.ContentRange v) = "Content-Range") ∧
    (∀ v, header_name (.ContentType v) = "Content-Type") ∧
    (∀ v, header_name (.Expires v) = "Expires") ∧
    (∀ v, header_name (.LastModified v) = "Last-Modified") ∧
    (∀ n v, header_name (.ExtensionHeader n v) = n) :=
  ⟨fun _ => rfl, fun _ => rfl, fun _ => rfl, fun _ => rfl, fun _ => rfl,
   fun _ => rfl, fun _ => rfl, fun _ => rfl, fun _ => rfl, fun _ => rfl,
   fun _ => rfl, fun _ => rfl, fun _ => rfl, fun _ => rfl, fun _ => rfl,
   fun _ => rfl, fun _ => rfl, fun _ => rfl, fun _ => rfl, fun _ => rfl,
   fun _ => rfl, fun _ => rfl, fun _ => rfl, fun _ => rfl, fun _ => rfl,
   fun _ => rfl, fun _ => rfl, fun _ => rfl, fun _ => rfl, fun _ => rfl,
   fun _ => rfl, fun _ => rfl, fun _ => rfl, fun _ => rfl, fun _ => rfl,
   fun _ => rfl, fun _ => rfl, fun _ => rfl, fun _ _ => rfl⟩

/-- C7: unquoting the result of quoting any text gives back the text —
`maybe_unquote_string` applied to the value part produced by
`push_maybe_quoted_string` returns `some` of the original string, for
every string including the empty string and strings containing double
quotes, backslashes or spaces. -/
theorem quote_unquote_roundtrip (s : String) :
    maybe_unquote_string (push_maybe_quoted_string "" s) = some s := by
  have h1 : push_maybe_quoted_string "" s = String.mk (maybe_quote s.data) := rfl
  rw [h1, maybe_unquote_string]
  show some (String.mk (maybe_unquote (maybe_quote s.data))) = some s
  rw [maybe_unquote_maybe_quote]

/-- C9: folding a sequence of variants into a collection with `insert` is
deterministic — the final collection is a function only of the starting
collection and the sequence (two folds of equal sequences are equal). -/
theorem fold_insert_deterministic (c : HeaderCollection) (hs hs' : List Header)
    (h : hs = hs') :
    hs.foldl HeaderCollection.insert c = hs'.foldl HeaderCollection.insert c := by
  rw [h]

/-- Witness for C9 at a concrete sequence. -/
theorem fold_insert_deterministic_witness :
    ([Header.ContentLength 42, Header.Host ⟨"example.com", none⟩] =
      [Header.ContentLength 42, Header.Host ⟨"example.com", none⟩]) ∧
    List.foldl HeaderCollection.insert HeaderCollection.new
        [Header.ContentLength 42, Header.Host ⟨"example.com", none⟩] =
      List.foldl HeaderCollection.insert HeaderCollection.new
        [Header.ContentLength 42, Header.Host ⟨"example.com", none⟩] :=
  ⟨rfl, fold_insert_deterministic HeaderCollection.new _ _ rfl⟩

/-- C10: extension names are keyed case-sensitively — inserting two
extension headers whose names differ (in particular, differ only in
letter case) produces two entries, the first not overwritten by the
second. -/
theorem extensions_case_sensitive (c : HeaderCollection) (k₁ v₁ k₂ v₂ : String)
    (h : k₁ ≠ k₂) :
    ((c.insert (.ExtensionHeader k₁ v₁)).insert (.ExtensionHeader k₂ v₂)).extensions.find k₁ =
      some v₁ ∧
    ((c.insert (.ExtensionHeader k₁ v₁)).insert (.ExtensionHeader k₂ v₂)).extensions.find k₂ =
      some v₂ := by
  constructor
  · show findList (insertList (insertList c.extensions.entries k₁ v₁) k₂ v₂) k₁ = some v₁
    rw [findList_insertList_ne _ _ _ _ h, findList_insertList_self]
  · show findList (insertList (insertList c.extensions.entries k₁ v₁) k₂ v₂) k₂ = some v₂
    rw [findList_insertList_self]

/-- Witness for C10 at the names `"x-custom"` and `"X-Custom"`, which
differ only in letter case. -/
theorem extensions_case_sensitive_witness :
    ("x-custom" : String) ≠ "X-Custom" ∧
    (((HeaderCollection.new.insert (.ExtensionHeader "x-custom" "a")).insert
        (.ExtensionHeader "X-Custom" "b")).extensions.find "x-custom" = some "a" ∧
     ((HeaderCollection.new.insert (.ExtensionHeader "x-custom" "a")).insert
        (.ExtensionHeader "X-Custom" "b")).extensions.find "X-Custom" = some "b") :=
  ⟨by decide, extensions_case_sensitive HeaderCollection.new "x-custom" "a" "X-Custom" "b" (by decide)⟩

/-- C8: for every entry of the known-name table (as spelled in the
source's match arms), `value_from_stream` returns exactly the
`Option.map` of that field kind's `from_stream` on the value source:
`some` of the known tag when the kind's parse succeeds, and `none`
exactly when the kind's parse returns `none`, with no other effect. -/
theorem known_name_dispatch (tmc : TmCodec) (val : String) :
    value_from_stream tmc "Cache-Control" val = (strFromStream val).map Header.CacheControl ∧
    value_from_stream tmc "Connection" val = (Connection.fromStream val).map Header.Connection ∧
    value_from_stream tmc "Date" val = (tmc.parse val).map Header.Date ∧
    value_from_stream tmc "Pragma" val = (strFromStream val).map Header.Pragma ∧
    value_from_stream tmc "Trailer" val = (strFromStream val).map Header.Trailer ∧
    value_from_stream tmc "Transfer-Encoding" val = (strFromStream val).map Header.TransferEncoding ∧
    value_from_stream tmc "Upgrade" val = (strFromStream val).map Header.Upgrade ∧
    value_from_stream tmc "Via" val = (strFromStream val).map Header.Via ∧
    value_from_stream tmc "Warning" val = (strFromStream val).map Header.Warning ∧
    value_from_stream tmc "Accept" val = (strFromStream val).map Header.Accept ∧
    value_from_stream tmc "Accept-Charset" val = (strFromStream val).map Header.AcceptCharset ∧
    value_from_stream tmc "Accept-Encoding" val = (strFromStream val).map Header.AcceptEncoding ∧
    value_from_stream tmc "Accept-Language" val = (strFromStream val).map Header.AcceptLanguage ∧
    value_from_stream tmc "Authorization" val = (strFromStream val).map Header.Authorization ∧
    value_from_stream tmc "Expect" val = (strFromStream val).map Header.Expect ∧
    value_from_stream tmc "From" val = (strFromStream val).map Header.From ∧
    value_from_stream tmc "Host" val = (Host.fromStream val).map Header.Host ∧
    value_from_stream tmc "If-Match" val = (strFromStream val).map Header.IfMatch ∧
    value_from_stream tmc "If-Modified-Since" val = (tmc.parse val).map Header.IfModifiedSince ∧
    value_from_stream tmc "If-NoneMatch" val = (strFromStream val).map Header.IfNoneMatch ∧
    value_from_stream tmc "If-Range" val = (strFromStream val).map Header.IfRange ∧
    value_from_stream tmc "If-Unmodified-Since" val = (tmc.parse val).map Header.IfUnmodifiedSince ∧
    value_from_stream tmc "Max-Forwards" val = (uintFromStream val).map Header.MaxForwards ∧
    value_from_stream tmc "Proxy-Authorization" val = (strFromStream val).map Header.ProxyAuthorization ∧
    value_from_stream tmc "Range" val = (strFromStream val).map Header.Range ∧
    value_from_stream tmc "Referer" val = (strFromStream val).map Header.Referer ∧
    value_from_stream tmc "Te" val = (strFromStream val).map Header.Te ∧
    value_from_stream tmc "User-Agent" val = (strFromStream val).map Header.UserAgent ∧
    value_from_stream tmc "Allow" val = (Allow.fromStream val).map Header.Allow ∧
    value_from_stream tmc "Content-Encoding" val = (strFromStream val).map Header.ContentEncoding ∧
    value_from_stream tmc "Content-Language" val = (strFromStream val).map Header.ContentLanguage ∧
    value_from_stream tmc "Content-Length" val = (uintFromStream val).map Header.ContentLength ∧
    value_from_stream tmc "Content-Location" val = (strFromStream val).map Header.ContentLocation ∧
    value_from_stream tmc "Content-Md5" val = (strFromStream val).map Header.ContentMd5 ∧
    value_from_stream tmc "Content-Range" val = (strFromStream val).map Header.ContentRange ∧
    value_from_stream tmc "Content-Type" val = (strFromStream val).map Header.ContentType ∧
    value_from_stream tmc "Expires" val = (tmc.parse val).map Header.Expires ∧
    value_from_stream tmc "Last-Modified" val = (tmc.parse val).map Header.LastModified := by
  refine ⟨?_, ?_, ?_, ?_, ?_, ?_, ?_, ?_, ?_, ?_, ?_, ?_, ?_, ?_, ?_, ?_, ?_, ?_, ?_, ?_, ?_, ?_, ?_, ?_, ?_, ?_, ?_, ?_, ?_, ?_, ?_, ?_, ?_, ?_, ?_, ?_, ?_, ?_⟩
  · cases hx : strFromStream val <;> simp [value_from_stream, hx]
  · cases hx : Connection.fromStream val <;> simp [value_from_stream, hx]
  · cases hx : tmc.parse val <;> simp [value_from_stream, hx]
  · cases hx : strFromStream val <;> simp [value_from_stream, hx]
  · cases hx : strFromStream val <;> simp [value_from_stream, hx]
  · cases hx : strFromStream val <;> simp [value_from_stream, hx]
  · cases hx : strFromStream val <;> simp [value_from_stream, hx]
  · cases hx : strFromStream val <;> simp [value_from_stream, hx]
  · cases hx : strFromStream val <;> simp [value_from_stream, hx]
  · cases hx : strFromStream val <;> simp [value_from_stream, hx]
  · cases hx : strFromStream val <;> simp [value_from_stream, hx]
  · cases hx : strFromStream val <;> simp [value_from_stream, hx]
  · cases hx : strFromStream val <;> simp [value_from_stream, hx]
  · cases hx : strFromStream val <;> simp [value_from_stream, hx]
  · cases hx : strFromStream val <;> simp [value_from_stream, hx]
  · cases hx : strFromStream val <;> simp [value_from_stream, hx]
  · cases hx : Host.fromStream val <;> simp [value_from_stream, hx]
  · cases hx : strFromStream val <;> simp [value_from_stream, hx]
  · cases hx : tmc.parse val <;> simp [value_from_stream, hx]
  · cases hx : strFromStream val <;> simp [value_from_stream, hx]
  · cases hx : strFromStream val <;> simp [value_from_stream, hx]
  · cases hx : tmc.parse val <;> simp [value_from_stream, hx]
  · cases hx : uintFromStream val <;> simp [value_from_stream, hx]
  · cases hx : strFromStream val <;> simp [value_from_stream, hx]
  · cases hx : strFromStream val <;> simp [value_from_stream, hx]
  · cases hx : strFromStream val <;> simp [value_from_stream, hx]
  · cases hx : strFromStream val <;> simp [value_from_stream, hx]
  · cases hx : strFromStream val <;> simp [value_from_stream, hx]
  · cases hx : Allow.fromStream val <;> simp [value_from_stream, hx]
  · cases hx : strFromStream val <;> simp [value_from_stream, hx]
  · cases hx : strFromStream val <;> simp [value_from_stream, hx]
  · cases hx : uintFromStream val <;> simp [value_from_stream, hx]
  · cases hx : strFromStream val <;> simp [value_from_stream, hx]
  · cases hx : strFromStream val <;> simp [value_from_stream, hx]
  · cases hx : strFromStream val <;> simp [value_from_stream, hx]
  · cases hx : strFromStream val <;> simp [value_from_stream, hx]
  · cases hx : tmc.parse val <;> simp [value_from_stream, hx]
  · cases hx : tmc.parse val <;> simp [value_from_stream, hx]

end RustHttp
